import Mathlib

/-!
Shallow embedding of `src/memguardian.py` (k8s-memguardian).

The Python module implements a reconciliation loop that evicts pods whose
containers exceed an annotation-declared soft memory limit.  Exceptions that
can escape the Python functions (AttributeError on `None`, ValueError from
`int`, an API error from the cluster client) are modelled with an explicit
error type threaded through `Except`.
-/

/-- The exceptions the Python code can raise along the modelled paths:
`attrError` models `AttributeError` (attribute access on `None`, including
`m.group` when the regex match is `None`), `valueError` models `ValueError`
from `int(...)`, `typeError` models `TypeError` from comparing with `None`,
and `apiError` models a `kubernetes` API exception from a status read. -/
inductive Exc where
  | attrError
  | valueError
  | typeError
  | apiError
deriving DecidableEq

/-- `\w` of the Python regex (ASCII fragment): letters, digits, underscore. -/
def isWordChar (c : Char) : Bool :=
  c.isAlphanum || c = '_'

/-- Greedy `\d*`: the longest digit prefix, paired with the rest. -/
def takeDigits : List Char → List Char × List Char
  | [] => ([], [])
  | c :: cs =>
    if c.isDigit then (c :: (takeDigits cs).1, (takeDigits cs).2)
    else ([], c :: cs)

/-- Greedy `\w*`: the longest word-character prefix, paired with the rest. -/
def takeWord : List Char → List Char × List Char
  | [] => ([], [])
  | c :: cs =>
    if isWordChar c then (c :: (takeWord cs).1, (takeWord cs).2)
    else ([], c :: cs)

/-- Whether a character list starts with a digit (`false` on `[]`). -/
def headDigit : List Char → Bool
  | [] => false
  | c :: _ => c.isDigit

/-- Whether a character list starts with a dot (`false` on `[]`). -/
def headDot : List Char → Bool
  | [] => false
  | c :: _ => c == '.'

/-- `re.match("(?P<amount>\d+\.?\d*)(?P<units>\w*)", s)`: `none` when the
anchored pattern does not match (no leading digit); otherwise the captured
`amount` and `units` groups.  All subpatterns are greedy and everything after
the mandatory `\d+` is optional, so greedy composition is exact. -/
def reMatch (s : List Char) : Option (List Char × List Char) :=
  match takeDigits s with
  | ([], _) => none
  | (d1, []) => some (d1, [])
  | (d1, c :: t) =>
    if c = '.' then
      some (d1 ++ c :: (takeDigits t).1, (takeWord (takeDigits t).2).1)
    else some (d1, (takeWord (c :: t)).1)

/-- Value of a digit string, as computed by Python `int` on digits. -/
def digitsVal (l : List Char) : Nat :=
  l.foldl (fun n c => 10 * n + (c.toNat - 48)) 0

/-- The `multipliers` dict of `metric_to_bytes`, keyed by lowercase suffix. -/
def multList : List (String × Nat) :=
  [("", 1), ("k", 1000), ("m", 1000000), ("g", 1000000000),
   ("t", 1000000000000), ("p", 1000000000000000), ("e", 1000000000000000000),
   ("ki", 1024), ("mi", 1048576), ("gi", 1073741824), ("ti", 1099511627776),
   ("pi", 1125899906842624), ("ei", 1152921504606846976)]

/-- `multipliers.get(units.lower(), 0)`. -/
def multGet (units : List Char) : Nat :=
  (List.lookup (String.mk (units.map Char.toLower)) multList).getD 0

/-- `metric_to_bytes(amount)`: match the regex (raising `AttributeError` via
`m.group` when the match is `None`), convert the amount with `int(...)`
(raising `ValueError` when the amount contains a dot), lower-case the units
and look them up in `multipliers` with default `0`. -/
def metric_to_bytes (s : String) : Except Exc Nat :=
  match reMatch s.data with
  | none => Except.error Exc.attrError
  | some (amount, units) =>
    if '.' ∈ amount then Except.error Exc.valueError
    else Except.ok (digitsVal amount * multGet units)

/-- Decidable equality for `Except`, used to evaluate the embedded functions
on concrete inputs. -/
def exceptDecEq {e a : Type} [DecidableEq e] [DecidableEq a] : DecidableEq (Except e a)
  | Except.ok x, Except.ok y =>
    if h : x = y then isTrue (by rw [h]) else isFalse (fun hc => h (by cases hc; rfl))
  | Except.ok _, Except.error _ => isFalse (fun hc => Except.noConfusion hc)
  | Except.error _, Except.ok _ => isFalse (fun hc => Except.noConfusion hc)
  | Except.error x, Except.error y =>
    if h : x = y then isTrue (by rw [h]) else isFalse (fun hc => h (by cases hc; rfl))

instance {e a : Type} [DecidableEq e] [DecidableEq a] : DecidableEq (Except e a) :=
  exceptDecEq

/-- One entry of `pod_metadata.owner_references`. -/
structure OwnerRef where
  kind : String
  name : String
  controller : Bool
deriving DecidableEq

/-- The pod metadata fields the program reads (`ns` is the namespace). -/
structure PodMetadata where
  ns : String
  name : String
  annotations : List (String × String)
  owner_references : List OwnerRef
deriving DecidableEq

/-- A container spec: only its name is read. -/
structure ContainerSpec where
  name : String
deriving DecidableEq

/-- The `Container` wrapper class. -/
structure Container where
  pod_metadata : PodMetadata
  container_spec : ContainerSpec
deriving DecidableEq

/-- `Container.annotation_string` class attribute. -/
def Container.annotation_string : String := "memguardian.limit.memory"

/-- `Container.gen_key` / `fullname`: `f"{namespace}.{podname}.{name}"`. -/
def gen_key (ns podname cname : String) : String :=
  ns ++ "." ++ podname ++ "." ++ cname

/-- `container.name`. -/
def Container.name (c : Container) : String := c.container_spec.name

/-- `container.namespace`. -/
def Container.ns (c : Container) : String := c.pod_metadata.ns

/-- `container.podname`. -/
def Container.podname (c : Container) : String := c.pod_metadata.name

/-- `container.fullname`. -/
def Container.fullname (c : Container) : String :=
  gen_key c.pod_metadata.ns c.pod_metadata.name c.container_spec.name

/-- `container.controller`: the first owner reference whose `controller`
flag is set, `none` when there is no such owner. -/
def Container.controller (c : Container) : Option OwnerRef :=
  c.pod_metadata.owner_references.find? (fun o => o.controller)

/-- The string `f"{controller.kind}/{controller.name}"`. -/
def OwnerRef.controller_string (o : OwnerRef) : String :=
  o.kind ++ "/" ++ o.name

/-- `container.controller_string`: `none` marks the `AttributeError` raised
when `container.controller` is `None`. -/
def Container.controller_string (c : Container) : Option String :=
  (Container.controller c).map OwnerRef.controller_string

/-- `container.memory_limit`: try the container-scoped annotation key, then
the pod-wide key; parse the first present value; `ok none` when neither key
is present (unmonitored). -/
def Container.memory_limit (c : Container) : Except Exc (Option Nat) :=
  match List.lookup (Container.annotation_string ++ "/" ++ c.container_spec.name)
      c.pod_metadata.annotations with
  | some v => Except.map some (metric_to_bytes v)
  | none =>
    match List.lookup Container.annotation_string c.pod_metadata.annotations with
    | some v => Except.map some (metric_to_bytes v)
    | none => Except.ok none

/-- A pod as read from `kclient.get_pods()`: metadata plus `spec.containers`. -/
structure Pod where
  metadata : PodMetadata
  spec_containers : List ContainerSpec
deriving DecidableEq

/-- The `metadata` dict of one metrics item. -/
structure MetricMeta where
  ns : String
  name : String
deriving DecidableEq

/-- One entry of a metrics item's `containers` list. -/
structure ContainerMetric where
  name : String
  usage_memory : String
deriving DecidableEq

/-- One item of `kclient.get_metrics()`. -/
structure MetricEntry where
  metadata : MetricMeta
  containers : List ContainerMetric
deriving DecidableEq

/-- A controller `.status` object: `ready_replicas` and `replicas`. -/
structure KStatus where
  ready_replicas : Option Nat
  replicas : Option Nat
deriving DecidableEq

/-- One `delete_namespaced_pod(name, namespace, owner)` request. -/
structure Deletion where
  podname : String
  ns : String
  owner : String
deriving DecidableEq

/-- Python `x or d` on an optional number: the default replaces both `None`
and the falsy value `0`. -/
def pyOrNat (o : Option Nat) (d : Nat) : Nat :=
  match o with
  | none => d
  | some 0 => d
  | some (n + 1) => n + 1

/-- The kinds with a status accessor in `read_namespaced_resource_status`. -/
def supportedKinds : List String :=
  ["deployment", "statefulset", "replicationcontroller", "replicaset"]

/-- `str.lower()` (ASCII). -/
def lowerStr (s : String) : String :=
  String.mk (s.data.map Char.toLower)

/-- The cluster client: the pod list, the metrics snapshot, and the status
API calls for supported kinds (keyed by lowercased kind; a call may raise). -/
structure KClient where
  pods : List Pod
  metrics : List MetricEntry
  fetchRaw : String → String → String → Except Exc KStatus

/-- `KubernetesClient.read_namespaced_resource_status(name, namespace, kind)`:
dispatch on `kind.lower()`; `ok none` models the Python `None` returned for an
unsupported kind; a supported kind performs the API call. -/
def read_namespaced_resource_status (f : String → String → String → Except Exc KStatus)
    (name ns kind : String) : Except Exc (Option KStatus) :=
  if supportedKinds.contains (lowerStr kind) then
    Except.map some (f name ns (lowerStr kind))
  else Except.ok none

/-- The body of `MemGuardian.delete_container` after the controller has been
found: a `None` status object (unsupported kind) raises `AttributeError` at
`controller.status`; otherwise the readiness gate
`(status.ready_replicas or 0) < (status.replicas or 1000)` denies, else the
pod deletion request is issued. -/
def delete_with_controller (f : String → String → String → Except Exc KStatus)
    (c : Container) (ctrl : OwnerRef) : Except Exc (Option Deletion) :=
  match read_namespaced_resource_status f ctrl.name (Container.ns c) ctrl.kind with
  | Except.error e => Except.error e
  | Except.ok none => Except.error Exc.attrError
  | Except.ok (some st) =>
    if pyOrNat st.ready_replicas 0 < pyOrNat st.replicas 1000 then Except.ok none
    else
      Except.ok (some (Deletion.mk (Container.podname c) (Container.ns c)
        (OwnerRef.controller_string ctrl)))

/-- `MemGuardian.delete_container`: no controller is a logged return without
deletion; otherwise proceed with the found controller. -/
def MemGuardian.delete_container (f : String → String → String → Except Exc KStatus)
    (c : Container) : Except Exc (Option Deletion) :=
  match Container.controller c with
  | none => Except.ok none
  | some ctrl => delete_with_controller f c ctrl

/-- The mutable state of one `MemGuardian.run` call: deletion requests issued
so far, the `updated_controllers` list, and the pending exception (`some e`
once an uncaught exception has aborted the loop). -/
structure RunState where
  deletions : List Deletion
  updated : List String
  err : Option Exc
deriving DecidableEq

/-- `limited_containers.get(key)`: Python dict lookup where a later insert
with the same key overwrites an earlier one. -/
def dictGet (l : List (String × Container)) (key : String) : Option Container :=
  List.lookup key l.reverse

/-- The containers of one pod yielded by `_limited_containers` (those whose
`memory_limit` is present), keyed by `fullname`; an exception from
`memory_limit` propagates. -/
def limitedOfPod (meta : PodMetadata) : List ContainerSpec → Except Exc (List (String × Container))
  | [] => Except.ok []
  | cs :: rest =>
    match Container.memory_limit (Container.mk meta cs) with
    | Except.error e => Except.error e
    | Except.ok none => limitedOfPod meta rest
    | Except.ok (some _) =>
      Except.map
        (fun l => (Container.fullname (Container.mk meta cs), Container.mk meta cs) :: l)
        (limitedOfPod meta rest)

/-- `dict((x.fullname, x) for x in self._limited_containers())`. -/
def buildLimited : List Pod → Except Exc (List (String × Container))
  | [] => Except.ok []
  | p :: rest =>
    match limitedOfPod p.metadata p.spec_containers with
    | Except.error e => Except.error e
    | Except.ok a =>
      match buildLimited rest with
      | Except.error e => Except.error e
      | Except.ok b => Except.ok (a ++ b)

/-- The eviction attempt for an over-limit container whose controller string
is `cs`: skip when the controller already had an eviction this cycle, else
call `delete_container` and append `cs` to `updated_controllers` whenever it
returns without raising. -/
def stepEvict (f : String → String → String → Except Exc KStatus)
    (c : Container) (cs : String) (st : RunState) : RunState :=
  if cs ∈ st.updated then st
  else
    match MemGuardian.delete_container f c with
    | Except.error e => RunState.mk st.deletions st.updated (some e)
    | Except.ok none => RunState.mk st.deletions (st.updated ++ [cs]) none
    | Except.ok (some d) =>
      RunState.mk (st.deletions ++ [d]) (st.updated ++ [cs]) none

/-- One iteration of the inner loop of `MemGuardian.run` for a metrics entry
`(mns, mname, cm)`: a no-op once an exception is pending; otherwise parse the
usage, look the key up among limited containers, re-read the limit, and when
the limit is exceeded evaluate `controller_string` (raising when there is no
controller) and attempt the eviction. -/
def step (f : String → String → String → Except Exc KStatus)
    (limited : List (String × Container)) (mns mname : String)
    (cm : ContainerMetric) (st : RunState) : RunState :=
  match st.err with
  | some _ => st
  | none =>
    match metric_to_bytes cm.usage_memory with
    | Except.error e => RunState.mk st.deletions st.updated (some e)
    | Except.ok value =>
      match dictGet limited (gen_key mns mname cm.name) with
      | none => st
      | some c =>
        match Container.memory_limit c with
        | Except.error e => RunState.mk st.deletions st.updated (some e)
        | Except.ok none => RunState.mk st.deletions st.updated (some Exc.typeError)
        | Except.ok (some limit) =>
          if value > limit then
            match Container.controller_string c with
            | none => RunState.mk st.deletions st.updated (some Exc.attrError)
            | some cs => stepEvict f c cs st
          else st

/-- The flattened nested metrics loop of `MemGuardian.run`. -/
def metricPairs (ms : List MetricEntry) : List (MetricMeta × ContainerMetric) :=
  (ms.map (fun m => m.containers.map (fun cm => (m.metadata, cm)))).flatten

/-- `MemGuardian.run`: build the limited-container index (an exception there
aborts the cycle with no deletions), then fold the metrics loop. -/
def MemGuardian.run (k : KClient) : RunState :=
  match buildLimited k.pods with
  | Except.error e => RunState.mk [] [] (some e)
  | Except.ok limited =>
    (metricPairs k.metrics).foldl
      (fun st p => step k.fetchRaw limited p.1.ns p.1.name p.2 st)
      (RunState.mk [] [] none)

/-! Concrete cluster states used to exercise `MemGuardian.run`. -/

/-- A pod-wide limit annotation of 100 bytes. -/
def annLimit : List (String × String) := [(Container.annotation_string, "100")]

/-- The owning controller `Deployment/app`. -/
def ownApp : OwnerRef := OwnerRef.mk "Deployment" "app" true

/-- A single-container pod named `pname` in namespace `ns`. -/
def podW (ns pname : String) (owners : List OwnerRef)
    (ann : List (String × String)) : Pod :=
  Pod.mk (PodMetadata.mk ns pname ann owners) [ContainerSpec.mk "web"]

/-- A metrics item reporting `usage` for container `web` of pod `pname`. -/
def metricW (ns pname usage : String) : MetricEntry :=
  MetricEntry.mk (MetricMeta.mk ns pname) [ContainerMetric.mk "web" usage]

/-- A status API that always reports one ready replica out of one. -/
def fetchReady : String → String → String → Except Exc KStatus :=
  fun _ _ _ => Except.ok (KStatus.mk (some 1) (some 1))

/-- A status API that always reports zero ready replicas out of three. -/
def fetchUnready : String → String → String → Except Exc KStatus :=
  fun _ _ _ => Except.ok (KStatus.mk (some 0) (some 3))

/-- Two pods owned by the same controller, both over their 100-byte limit. -/
def envTwoSame : KClient :=
  KClient.mk
    [podW "ns" "p1" [ownApp] annLimit, podW "ns" "p2" [ownApp] annLimit]
    [metricW "ns" "p1" "200", metricW "ns" "p2" "200"]
    fetchReady

/-- A pod with an unparseable limit annotation, followed by a healthy
over-limit pod. -/
def envBadAnnotation : KClient :=
  KClient.mk
    [podW "ns" "p0" [ownApp] [(Container.annotation_string, "abc")],
     podW "ns" "p1" [ownApp] annLimit]
    [metricW "ns" "p1" "200"]
    fetchReady

/-- A deletable over-limit pod, then a metrics entry with an unparseable
usage sample, then another deletable over-limit pod. -/
def envBadUsage : KClient :=
  KClient.mk
    [podW "ns" "p1" [ownApp] annLimit,
     podW "ns2" "p2" [OwnerRef.mk "Deployment" "app2" true] annLimit]
    [metricW "ns" "p1" "200", metricW "ns" "nope" "abc", metricW "ns2" "p2" "200"]
    fetchReady

/-- An over-limit pod whose metadata has no controller-flagged owner. -/
def envNoController : KClient :=
  KClient.mk [podW "ns" "p1" [] annLimit] [metricW "ns" "p1" "200"] fetchReady

/-- An over-limit pod owned by a controller kind without a status accessor. -/
def envBadKind : KClient :=
  KClient.mk [podW "ns" "p1" [OwnerRef.mk "CronJob" "cj" true] annLimit]
    [metricW "ns" "p1" "200"] fetchReady

/-- Two over-limit pods in different namespaces whose controllers share
kind and name. -/
def envTwoNamespaces : KClient :=
  KClient.mk
    [podW "ns1" "p1" [ownApp] annLimit, podW "ns2" "p2" [ownApp] annLimit]
    [metricW "ns1" "p1" "200", metricW "ns2" "p2" "200"]
    fetchReady

/-- One over-limit pod whose controller has unready siblings. -/
def envUnready : KClient :=
  KClient.mk [podW "ns" "p1" [ownApp] annLimit] [metricW "ns" "p1" "200"]
    fetchUnready

/-- The over-limit container of pod `p1`, used for `delete_container` tests. -/
def contW : Container :=
  Container.mk (PodMetadata.mk "ns" "p1" annLimit [ownApp]) (ContainerSpec.mk "web")

/-- A status API reporting five ready replicas and a desired count of zero. -/
def fetchZeroDesired : String → String → String → Except Exc KStatus :=
  fun _ _ _ => Except.ok (KStatus.mk (some 5) (some 0))

/-- A status API reporting three ready replicas and an absent desired count. -/
def fetchAbsentDesired : String → String → String → Except Exc KStatus :=
  fun _ _ _ => Except.ok (KStatus.mk (some 3) none)

/-- Modelled from the spec: the readiness gate as the specification words it,
`ready = readyReplicas (default 0 if absent)`, `expected = desiredReplicas`
defaulting to a large sentinel only when `desiredReplicas` is absent, and
approval iff `ready >= expected`. -/
def spec_readiness_gate (st : KStatus) : Bool :=
  st.ready_replicas.getD 0 ≥ st.replicas.getD 1000

/-- Annotations with a pod-wide limit of 1Gi and a `c1`-scoped limit of
512Mi. -/
def annPrec : List (String × String) :=
  [(Container.annotation_string, "1Gi"),
   (Container.annotation_string ++ "/" ++ "c1", "512Mi")]

/-- Pod metadata carrying `annPrec`. -/
def metaPrec : PodMetadata := PodMetadata.mk "ns" "p" annPrec []

/-- Pod metadata carrying no annotations. -/
def metaNoAnn : PodMetadata := PodMetadata.mk "ns" "p" [] []

/-! Helper lemmas about the quantity parser. -/

/-- On an all-digit prefix followed by a non-digit, greedy `\d+` captures
exactly the prefix. -/
theorem takeDigits_eq (l r : List Char) (hl : ∀ c ∈ l, c.isDigit)
    (hr : headDigit r = false) : takeDigits (l ++ r) = (l, r) := by
  induction l with
  | nil =>
    cases r with
    | nil => rfl
    | cons c t =>
      simp only [headDigit] at hr
      simp [takeDigits, hr]
  | cons d l ih =>
    have hd : d.isDigit := hl d (by simp)
    simp only [List.cons_append, takeDigits, hd, if_true, List.append_eq]
    rw [ih (fun c hc => hl c (by simp [hc]))]

/-- A list of digits does not contain a dot. -/
theorem allDigits_not_dot {l : List Char} (hl : ∀ c ∈ l, c.isDigit) :
    '.' ∉ l :=
  fun h => absurd (hl '.' h) (by decide)

/-- The regex match on a nonempty digit prefix followed by a suffix that
starts with neither a digit nor a dot. -/
theorem reMatch_append (d : Char) (ds sfx : List Char)
    (h2 : ∀ c ∈ d :: ds, c.isDigit) (h4 : headDigit sfx = false)
    (h5 : headDot sfx = false) :
    reMatch ((d :: ds) ++ sfx) = some (d :: ds, (takeWord sfx).1) := by
  unfold reMatch
  rw [takeDigits_eq (d :: ds) sfx h2 h4]
  cases sfx with
  | nil => rfl
  | cons c t =>
    simp only [headDot] at h5
    have hc : ¬(c = '.') := by
      intro h
      rw [h] at h5
      simp at h5
    simp [hc]

/-- Evaluation of `metric_to_bytes` on a nonempty digit amount followed by a
word suffix. -/
theorem metric_to_bytes_digits (d : Char) (ds sfx : List Char)
    (h2 : ∀ c ∈ d :: ds, c.isDigit) (h4 : headDigit sfx = false)
    (h5 : headDot sfx = false) (h6 : (takeWord sfx).1 = sfx) :
    metric_to_bytes (String.mk ((d :: ds) ++ sfx)) =
      Except.ok (digitsVal (d :: ds) * multGet sfx) := by
  have hre : reMatch (String.mk ((d :: ds) ++ sfx)).data = some (d :: ds, sfx) := by
    rw [show (String.mk ((d :: ds) ++ sfx)).data = (d :: ds) ++ sfx from rfl]
    rw [reMatch_append d ds sfx h2 h4 h5, h6]
  unfold metric_to_bytes
  rw [hre]
  simp [allDigits_not_dot h2]

/-! Helper lemmas about the reconciliation loop. -/

/-- The owners of the deletion requests issued so far. -/
def ownersOf (st : RunState) : List String := st.deletions.map Deletion.owner

/-- The loop invariant of `MemGuardian.run`: every issued deletion's owner is
recorded in `updated_controllers`, and no owner occurs twice. -/
def RunInv (st : RunState) : Prop :=
  (∀ o ∈ ownersOf st, o ∈ st.updated) ∧ (ownersOf st).Nodup

/-- A deletion issued by `delete_with_controller` carries the candidate's
controller string as its owner label. -/
theorem delete_with_controller_owner (f : String → String → String → Except Exc KStatus)
    (c : Container) (ctrl : OwnerRef) (d : Deletion)
    (h : delete_with_controller f c ctrl = Except.ok (some d)) :
    OwnerRef.controller_string ctrl = d.owner := by
  unfold delete_with_controller at h
  cases hr : read_namespaced_resource_status f ctrl.name (Container.ns c) ctrl.kind with
  | error e =>
    rw [hr] at h
    simp at h
  | ok o =>
    rw [hr] at h
    cases o with
    | none => simp at h
    | some st =>
      have h2 : (if pyOrNat st.ready_replicas 0 < pyOrNat st.replicas 1000 then
          (Except.ok none : Except Exc (Option Deletion))
        else Except.ok (some (Deletion.mk (Container.podname c) (Container.ns c)
          (OwnerRef.controller_string ctrl)))) = Except.ok (some d) := h
      split at h2
      · simp at h2
      · simp only [Except.ok.injEq, Option.some.injEq] at h2
        rw [← h2]

/-- A deletion issued by `delete_container` carries the candidate's
controller string as its owner label. -/
theorem delete_container_owner (f : String → String → String → Except Exc KStatus)
    (c : Container) (d : Deletion)
    (h : MemGuardian.delete_container f c = Except.ok (some d)) :
    Container.controller_string c = some d.owner := by
  unfold MemGuardian.delete_container at h
  cases hc : Container.controller c with
  | none =>
    rw [hc] at h
    simp at h
  | some ctrl =>
    rw [hc] at h
    have h2 : delete_with_controller f c ctrl = Except.ok (some d) := h
    rw [Container.controller_string, hc]
    simp [delete_with_controller_owner f c ctrl d h2]

/-- `stepEvict` preserves the loop invariant when the candidate's controller
string is `cs`. -/
theorem stepEvict_inv (f : String → String → String → Except Exc KStatus)
    (c : Container) (cs : String) (st : RunState)
    (hcs : Container.controller_string c = some cs) (h : RunInv st) :
    RunInv (stepEvict f c cs st) := by
  unfold stepEvict
  split
  · exact h
  · rename_i hni
    cases hdel : MemGuardian.delete_container f c with
    | error e => exact h
    | ok od =>
      cases od with
      | none => exact ⟨fun o ho => List.mem_append_left _ (h.1 o ho), h.2⟩
      | some d =>
        have hown : Container.controller_string c = some d.owner :=
          delete_container_owner f c d hdel
        rw [hcs] at hown
        have hoeq : cs = d.owner := by
          simpa using hown
        constructor
        · intro o ho
          simp only [ownersOf, List.map_append] at ho
          rcases List.mem_append.mp ho with hl | hr
          · exact List.mem_append_left _ (h.1 o hl)
          · simp only [List.map_cons, List.map_nil, List.mem_singleton] at hr
            rw [hr, ← hoeq]
            exact List.mem_append_right _ (by simp)
        · simp only [ownersOf, List.map_append, List.map_cons, List.map_nil]
          rw [List.nodup_append]
          refine ⟨h.2, List.nodup_singleton _, ?_⟩
          intro o hol hor
          simp only [List.mem_singleton] at hor
          rw [hor, ← hoeq] at hol
          exact hni (h.1 _ hol)

/-- `step` preserves the loop invariant. -/
theorem step_inv (f : String → String → String → Except Exc KStatus)
    (lim : List (String × Container)) (mns mname : String)
    (cm : ContainerMetric) (st : RunState) (h : RunInv st) :
    RunInv (step f lim mns mname cm st) := by
  unfold step
  split
  · exact h
  · split
    · exact h
    · split
      · exact h
      · split
        · exact h
        · exact h
        · split
          · split
            · exact h
            · exact stepEvict_inv f _ _ st (by assumption) h
          · exact h

/-- The metrics fold preserves the loop invariant. -/
theorem foldl_inv (f : String → String → String → Except Exc KStatus)
    (lim : List (String × Container))
    (ps : List (MetricMeta × ContainerMetric)) (st : RunState) (h : RunInv st) :
    RunInv (ps.foldl (fun s p => step f lim p.1.ns p.1.name p.2 s) st) := by
  induction ps generalizing st with
  | nil => exact h
  | cons p ps ih => exact ih _ (step_inv f lim p.1.ns p.1.name p.2 st h)

/-- The loop invariant holds of the final state of every cycle. -/
theorem run_inv (k : KClient) : RunInv (MemGuardian.run k) := by
  unfold MemGuardian.run
  split
  · exact ⟨fun o ho => absurd ho (by simp [ownersOf]), by simp [ownersOf]⟩
  · exact foldl_inv _ _ _ _ ⟨fun o ho => absurd ho (by simp [ownersOf]), by simp [ownersOf]⟩

/-- If the owners of `l` are pairwise distinct, any filter whose predicate
pins the owner keeps at most one element. -/
theorem nodup_owner_filter_le (l : List Deletion) (p : Deletion → Bool) (o : String)
    (hn : (l.map Deletion.owner).Nodup) (hp : ∀ d, p d = true → d.owner = o) :
    (l.filter p).length ≤ 1 := by
  induction l with
  | nil => simp
  | cons d t ih =>
    simp only [List.map_cons, List.nodup_cons] at hn
    cases hpd : p d with
    | false => simpa [List.filter, hpd] using ih hn.2
    | true =>
      have hempty : t.filter p = [] := by
        rw [List.eq_nil_iff_forall_not_mem]
        intro x hx
        have hxt := List.mem_filter.mp hx
        have : x.owner = o := hp x hxt.2
        apply hn.1
        rw [show Deletion.owner d = o from hp d hpd, ← this]
        exact List.mem_map_of_mem Deletion.owner hxt.1
      simp [List.filter, hpd, hempty]

/-- If some container of the pod has a limit annotation that raises during
parsing, `limitedOfPod` raises. -/
theorem limitedOfPod_error (meta : PodMetadata) (l : List ContainerSpec)
    (h : ∃ cs ∈ l, ∃ e, Container.memory_limit (Container.mk meta cs) = Except.error e) :
    ∃ e, limitedOfPod meta l = Except.error e := by
  induction l with
  | nil => simp at h
  | cons c t ih =>
    rcases h with ⟨cs, hmem, e, he⟩
    rcases List.mem_cons.mp hmem with hhd | htl
    · rw [hhd] at he
      exact ⟨e, by simp [limitedOfPod, he]⟩
    · rcases ih ⟨cs, htl, e, he⟩ with ⟨e2, he2⟩
      cases hm : Container.memory_limit (Container.mk meta c) with
      | error e0 => exact ⟨e0, by simp [limitedOfPod, hm]⟩
      | ok o =>
        cases o with
        | none => exact ⟨e2, by simp [limitedOfPod, hm, he2]⟩
        | some v => exact ⟨e2, by simp [limitedOfPod, hm, he2, Except.map]⟩

/-- If some container of some pod has a limit annotation that raises during
parsing, `buildLimited` raises. -/
theorem buildLimited_error (pods : List Pod)
    (h : ∃ p ∈ pods, ∃ cs ∈ p.spec_containers, ∃ e,
      Container.memory_limit (Container.mk p.metadata cs) = Except.error e) :
    ∃ e, buildLimited pods = Except.error e := by
  induction pods with
  | nil => simp at h
  | cons p t ih =>
    rcases h with ⟨q, hmem, hq⟩
    rcases List.mem_cons.mp hmem with hhd | htl
    · rcases limitedOfPod_error q.metadata q.spec_containers hq with ⟨e, he⟩
      rw [hhd] at he
      exact ⟨e, by simp [buildLimited, he]⟩
    · rcases ih ⟨q, htl, hq⟩ with ⟨e2, he2⟩
      cases hm : limitedOfPod p.metadata p.spec_containers with
      | error e0 => exact ⟨e0, by simp [buildLimited, hm]⟩
      | ok a => exact ⟨e2, by simp [buildLimited, hm, he2]⟩

/-! String helper lemmas for reasoning about annotation keys. -/

/-- `String.append` acts as list append on the underlying data. -/
theorem str_data_append (a b : String) : (a ++ b).data = a.data ++ b.data := by
  cases a
  cases b
  rfl

/-- Strings with equal data are equal. -/
theorem str_ext (a b : String) (h : a.data = b.data) : a = b := by
  cases a
  cases b
  exact congrArg String.mk h

/-- Left cancellation for string append. -/
theorem str_append_cancel (p b c : String) (h : p ++ b = p ++ c) : b = c := by
  have hd := congrArg String.data h
  rw [str_data_append, str_data_append] at hd
  exact str_ext b c (List.append_cancel_left hd)

/-- A container-scoped annotation key is never the pod-wide key. -/
theorem scoped_key_ne_base (c : String) :
    Container.annotation_string ++ "/" ++ c ≠ Container.annotation_string := by
  intro h
  have hd := congrArg String.data h
  rw [str_data_append] at hd
  have hlen := congrArg List.length hd
  rw [List.length_append] at hlen
  have h1 : (Container.annotation_string ++ "/").data.length = 25 := by decide
  have h2 : Container.annotation_string.data.length = 24 := by decide
  omega

/-! Claim theorems: the quantity parser. -/

/-- C10: `metric_to_bytes` is not total: on every input that does not begin
with a digit (such as `""`, `"abc"`, `"-5Gi"`) the anchored regex fails to
match, the match object is `None`, and `m.group` raises an uncaught
`AttributeError`. -/
theorem metric_to_bytes_no_leading_digit_raises (s : String)
    (h : headDigit s.data = false) :
    metric_to_bytes s = Except.error Exc.attrError := by
  unfold metric_to_bytes reMatch
  cases hd : s.data with
  | nil => rfl
  | cons c t =>
    rw [hd] at h
    simp only [headDigit] at h
    simp [takeDigits, h]

/-- Witness for C10: the exception is raised on `""`, `"abc"` and `"-5Gi"`. -/
theorem metric_to_bytes_no_leading_digit_raises_witness :
    metric_to_bytes "" = Except.error Exc.attrError
    ∧ metric_to_bytes "abc" = Except.error Exc.attrError
    ∧ metric_to_bytes "-5Gi" = Except.error Exc.attrError :=
  ⟨metric_to_bytes_no_leading_digit_raises "" (by decide),
   metric_to_bytes_no_leading_digit_raises "abc" (by decide),
   metric_to_bytes_no_leading_digit_raises "-5Gi" (by decide)⟩

/-- C3: contrary to the claim, the code does not reject an unrecognized unit
suffix: a well-formed numeric prefix with an unknown suffix silently yields
a byte value of `0`, because `multipliers.get(units, 0)` defaults to a zero
multiplier. -/
theorem metric_to_bytes_unknown_suffix_silently_zero :
    metric_to_bytes "100foo" = Except.ok 0
    ∧ metric_to_bytes "5X" = Except.ok 0 :=
  ⟨rfl, rfl⟩

/-- Counterexample for C9: `parse("0.5Mi")` does not truncate to `524288`;
the amount `"0.5"` is passed to `int(...)`, which raises `ValueError`. -/
theorem metric_to_bytes_decimal_counterexample :
    metric_to_bytes "0.5Mi" = Except.error Exc.valueError
    ∧ metric_to_bytes "0.5Mi" ≠ Except.ok 524288 :=
  ⟨rfl, fun h => Except.noConfusion h⟩

/-- Evaluation of `metric_to_bytes` on a digit amount and a fixed recognized
suffix whose multiplier is `m`. -/
theorem metric_case (d : Char) (ds : List Char) (u : String) (m : Nat)
    (h2 : ∀ c ∈ d :: ds, c.isDigit)
    (h4 : headDigit u.data = false) (h5 : headDot u.data = false)
    (h6 : (takeWord u.data).1 = u.data) (hm : multGet u.data = m) :
    metric_to_bytes (String.mk ((d :: ds) ++ u.data)) =
      Except.ok (digitsVal (d :: ds) * m) := by
  rw [metric_to_bytes_digits d ds u.data h2 h4 h5 h6, hm]

/-- C9 (amended): for a nonempty all-digit amount followed by a recognized
suffix, `metric_to_bytes` returns the amount times the suffix multiplier
(`parse("1Ki") = 1024`, `parse("2G") = 2000000000`); a decimal amount such
as `"0.5Mi"` is not truncated but raises `ValueError` from `int(...)`. -/
theorem metric_to_bytes_integer_amounts :
    (∀ (amt : List Char) (u : String) (m : Nat), amt ≠ [] →
      (∀ c ∈ amt, c.isDigit) → (u, m) ∈ multList →
      metric_to_bytes (String.mk (amt ++ u.data)) = Except.ok (digitsVal amt * m))
    ∧ metric_to_bytes "1Ki" = Except.ok 1024
    ∧ metric_to_bytes "2G" = Except.ok 2000000000
    ∧ metric_to_bytes "0.5Mi" = Except.error Exc.valueError := by
  refine ⟨?_, rfl, rfl, rfl⟩
  intro amt u m h1 h2 h3
  cases amt with
  | nil => exact absurd rfl h1
  | cons d ds =>
    simp only [multList, List.mem_cons, List.mem_singleton, Prod.mk.injEq,
      List.not_mem_nil, or_false] at h3
    rcases h3 with h | h | h | h | h | h | h | h | h | h | h | h | h
    all_goals obtain ⟨rfl, rfl⟩ := h
    all_goals (refine metric_case d ds _ _ h2 ?_ ?_ ?_ ?_ <;> decide)

/-- Witness for C9 (amended): `parse("42mi") = 42 * 1048576`. -/
theorem metric_to_bytes_integer_amounts_witness :
    metric_to_bytes (String.mk (['4', '2'] ++ "mi".data)) =
      Except.ok (digitsVal ['4', '2'] * 1048576) :=
  metric_to_bytes_integer_amounts.1 ['4', '2'] "mi" 1048576 (by decide)
    (by decide) (by decide)

/-! Claim theorems: limit resolution. -/

/-- C8: limit resolution precedence is container-scoped annotation, then
pod-wide annotation, then unmonitored: with annotations
`{X: "1Gi", X/c1: "512Mi"}`, container `c1` resolves to 512Mi, every other
container resolves to 1Gi, and with no annotation key present every
container resolves to absent. -/
theorem memory_limit_precedence :
    Container.memory_limit (Container.mk metaPrec (ContainerSpec.mk "c1")) =
      Except.ok (some 536870912)
    ∧ (∀ c : String, c ≠ "c1" →
        Container.memory_limit (Container.mk metaPrec (ContainerSpec.mk c)) =
          Except.ok (some 1073741824))
    ∧ (∀ c : String,
        Container.memory_limit (Container.mk metaNoAnn (ContainerSpec.mk c)) =
          Except.ok none) := by
  refine ⟨by decide, ?_, fun c => rfl⟩
  intro c hc
  have hne1 : (Container.annotation_string ++ "/" ++ c ==
      Container.annotation_string) = false :=
    beq_eq_false_iff_ne.mpr (scoped_key_ne_base c)
  have hne2 : (Container.annotation_string ++ "/" ++ c ==
      Container.annotation_string ++ "/" ++ "c1") = false :=
    beq_eq_false_iff_ne.mpr (fun h => hc (str_append_cancel _ _ _ h))
  unfold Container.memory_limit
  simp only [metaPrec, annPrec, List.lookup, hne1, hne2]
  rfl

/-- Witness for C8: container `c2` resolves to the pod-wide 1Gi value. -/
theorem memory_limit_precedence_witness :
    Container.memory_limit (Container.mk metaPrec (ContainerSpec.mk "c2")) =
      Except.ok (some 1073741824) :=
  memory_limit_precedence.2.1 "c2" (by decide)

/-! Claim theorems: the reconciliation cycle. -/

/-- C1: within one cycle at most one deletion request is issued per distinct
controller (the dedup key `kind/name` is even coarser than a per-namespace
controller identity), and for two containers owned by the same controller,
both over their limits and otherwise eligible, exactly one deletion request
is issued. -/
theorem run_at_most_one_eviction_per_controller :
    (∀ (k : KClient) (o n : String),
      ((MemGuardian.run k).deletions.filter
        (fun d => d.owner == o && d.ns == n)).length ≤ 1)
    ∧ (MemGuardian.run envTwoSame).deletions =
        [Deletion.mk "p1" "ns" "Deployment/app"]
    ∧ (MemGuardian.run envTwoSame).err = none := by
  refine ⟨?_, by decide, by decide⟩
  intro k o n
  refine nodup_owner_filter_le _ _ o (run_inv k).2 ?_
  intro d hd
  exact eq_of_beq ((Bool.and_eq_true _ _).mp hd).1

/-- C2 (amended): with a controller present and its status fetched, the
eviction is approved iff `(ready_replicas or 0) >= (replicas or 1000)` in
the Python sense of `or`: the defaults replace an absent value *and* a zero
value, so `desiredReplicas=0` is treated like absent, and an absent
`desiredReplicas` with `readyReplicas=3` is denied, not approved. -/
theorem delete_container_readiness_gate
    (f : String → String → String → Except Exc KStatus) (c : Container)
    (ctrl : OwnerRef) (st : KStatus)
    (h1 : Container.controller c = some ctrl)
    (h2 : read_namespaced_resource_status f ctrl.name (Container.ns c) ctrl.kind
      = Except.ok (some st)) :
    (MemGuardian.delete_container f c =
        Except.ok (some (Deletion.mk (Container.podname c) (Container.ns c)
          (OwnerRef.controller_string ctrl)))
      ↔ pyOrNat st.ready_replicas 0 ≥ pyOrNat st.replicas 1000)
    ∧ (pyOrNat st.ready_replicas 0 < pyOrNat st.replicas 1000 →
        MemGuardian.delete_container f c = Except.ok none) := by
  have hd : MemGuardian.delete_container f c =
      (if pyOrNat st.ready_replicas 0 < pyOrNat st.replicas 1000 then
        Except.ok none
      else Except.ok (some (Deletion.mk (Container.podname c) (Container.ns c)
        (OwnerRef.controller_string ctrl)))) := by
    unfold MemGuardian.delete_container
    rw [h1]
    show delete_with_controller f c ctrl = _
    unfold delete_with_controller
    rw [h2]
  rw [hd]
  split_ifs with hlt
  · constructor
    · constructor
      · intro h
        exact absurd h (by simp)
      · intro hge
        exact absurd hge (by omega)
    · intro _
      rfl
  · constructor
    · exact ⟨fun _ => Nat.le_of_not_lt hlt, fun _ => rfl⟩
    · intro h2lt
      exact absurd h2lt hlt

/-- Witness for C2 (amended): with one ready replica out of one desired, the
eviction of `contW` is approved and the deletion request carries the pod
name, namespace and controller string. -/
theorem delete_container_readiness_gate_witness :
    MemGuardian.delete_container fetchReady contW =
      Except.ok (some (Deletion.mk (Container.podname contW) (Container.ns contW)
        (OwnerRef.controller_string ownApp))) :=
  (delete_container_readiness_gate fetchReady contW ownApp
    (KStatus.mk (some 1) (some 1)) (by decide) (by decide)).1.mpr (by decide)

/-- Counterexample for C2: the claim says the large-sentinel default applies
*only* when `desiredReplicas` is absent, and that `readyReplicas=3` with
`desiredReplicas` absent is approved.  The code treats a zero
`desiredReplicas` like an absent one (denying a status the claim's formula
approves), and denies the absent-`desiredReplicas` example. -/
theorem readiness_gate_counterexample :
    spec_readiness_gate (KStatus.mk (some 5) (some 0)) = true
    ∧ MemGuardian.delete_container fetchZeroDesired contW = Except.ok none
    ∧ MemGuardian.delete_container fetchAbsentDesired contW = Except.ok none :=
  ⟨rfl, rfl, rfl⟩

/-- Counterexample for C4: a malformed limit annotation on pod `p0` is not
scoped to `p0`: the whole cycle aborts with `AttributeError` and the healthy
over-limit pod `p1` is never processed (no deletion is issued). -/
theorem run_bad_annotation_counterexample :
    MemGuardian.run envBadAnnotation = RunState.mk [] [] (some Exc.attrError) := by
  decide

/-- C4 (amended): a quantity string on which the parser raises is fatal to
the cycle, not scoped to one container: a raising limit annotation aborts
the cycle during index construction with no deletions at all, and a raising
usage sample aborts the metrics loop at that entry, keeping earlier
deletions but processing no later entries. -/
theorem run_malformed_quantity_aborts :
    (∀ k : KClient,
      (∃ p ∈ k.pods, ∃ cs ∈ p.spec_containers, ∃ e,
        Container.memory_limit (Container.mk p.metadata cs) = Except.error e) →
      (MemGuardian.run k).deletions = [] ∧ (MemGuardian.run k).err ≠ none)
    ∧ MemGuardian.run envBadUsage =
        RunState.mk [Deletion.mk "p1" "ns" "Deployment/app"] ["Deployment/app"]
          (some Exc.attrError) := by
  refine ⟨?_, by decide⟩
  intro k h
  rcases buildLimited_error k.pods h with ⟨e, he⟩
  unfold MemGuardian.run
  rw [he]
  exact ⟨rfl, by simp⟩

/-- Witness for C4 (amended): the concrete cluster `envBadAnnotation` has a
raising limit annotation, so its cycle issues no deletions and aborts. -/
theorem run_malformed_quantity_aborts_witness :
    (MemGuardian.run envBadAnnotation).deletions = []
    ∧ (MemGuardian.run envBadAnnotation).err ≠ none :=
  run_malformed_quantity_aborts.1 envBadAnnotation
    ⟨podW "ns" "p0" [ownApp] [(Container.annotation_string, "abc")], by decide,
     ContainerSpec.mk "web", by decide, Exc.attrError, by decide⟩

/-- C5: contrary to the claim, an over-limit candidate without an owning
controller, or with a controller of unsupported kind, is not a logged
per-candidate skip: the cycle aborts with `AttributeError` (raised by
`controller_string` on `None`, resp. by `controller.status` on the `None`
returned for an unsupported kind), issuing no deletions. -/
theorem run_controller_errors_abort_cycle :
    MemGuardian.run envNoController = RunState.mk [] [] (some Exc.attrError)
    ∧ MemGuardian.run envBadKind = RunState.mk [] [] (some Exc.attrError) :=
  ⟨by decide, by decide⟩

/-- Counterexample for C6: two over-limit containers in different namespaces
whose controllers share kind and name: both are eligible, yet only the first
is deleted — the second is denied as already-used although its controller
lives in another namespace, because the dedup key is `kind/name` without the
namespace. -/
theorem run_cross_namespace_blocking_counterexample :
    MemGuardian.run envTwoNamespaces =
      RunState.mk [Deletion.mk "p1" "ns1" "Deployment/app"] ["Deployment/app"]
        none := by
  decide

/-- C6 (amended): the per-cycle dedup set identifies controllers by
`kind/name` only, with no namespace component: any two deletions of one
cycle with the same owner string are the same deletion, even across
namespaces. -/
theorem run_dedup_by_kind_name_only (k : KClient) (d1 d2 : Deletion)
    (h1 : d1 ∈ (MemGuardian.run k).deletions)
    (h2 : d2 ∈ (MemGuardian.run k).deletions)
    (h3 : d1.owner = d2.owner) : d1 = d2 :=
  List.inj_on_of_nodup_map (run_inv k).2 h1 h2 h3

/-- Witness for C6 (amended), applied to the cross-namespace cluster. -/
theorem run_dedup_by_kind_name_only_witness :
    Deletion.mk "p1" "ns1" "Deployment/app" =
      Deletion.mk "p1" "ns1" "Deployment/app" :=
  run_dedup_by_kind_name_only envTwoNamespaces
    (Deletion.mk "p1" "ns1" "Deployment/app")
    (Deletion.mk "p1" "ns1" "Deployment/app") (by decide) (by decide) rfl

/-- Counterexample for C7: a candidate denied for unready siblings still has
its controller appended to `updated_controllers`: the cycle ends with no
deletions but a nonempty used-controllers list. -/
theorem run_denied_still_marks_controller_counterexample :
    MemGuardian.run envUnready = RunState.mk [] ["Deployment/app"] none := by
  decide

/-- C7 (amended): the owning controller is appended to the used set whenever
`delete_container` returns without raising — on approval (so every issued
deletion's owner is in the set) but also on an unready-siblings denial, as
`envUnready` shows: `delete_container` denies, yet the controller is
recorded. -/
theorem run_updated_contains_all_deletion_owners :
    (∀ (k : KClient) (d : Deletion), d ∈ (MemGuardian.run k).deletions →
      d.owner ∈ (MemGuardian.run k).updated)
    ∧ MemGuardian.delete_container fetchUnready contW = Except.ok none
    ∧ (MemGuardian.run envUnready).updated = ["Deployment/app"] := by
  refine ⟨?_, rfl, by decide⟩
  intro k d hd
  exact (run_inv k).1 d.owner (List.mem_map_of_mem Deletion.owner hd)

/-- Witness for C7 (amended): the owner of the deletion issued in
`envTwoSame` is recorded in the used set. -/
theorem run_updated_contains_all_deletion_owners_witness :
    (Deletion.mk "p1" "ns" "Deployment/app").owner ∈
      (MemGuardian.run envTwoSame).updated :=
  run_updated_contains_all_deletion_owners.1 envTwoSame
    (Deletion.mk "p1" "ns" "Deployment/app") (by decide)
